import Mathlib

/-!
Verification development for the calendar availability and booking service.

The Lean definitions below are shallow embeddings of the TypeScript source
(src/lib/calendar and src/lib/meetings/ksuite).  Instants are modelled as
integer milliseconds since the Unix epoch; JavaScript Date arithmetic on a
fixed-offset timezone is plain integer arithmetic on that representation.
ISO strings produced by Date.toISOString are in bijection with their
millisecond time values, so the string comparisons the source performs on
such strings are modelled as integer comparisons.  Fallible operations
return Option or Except.  External collaborators (the CalDAV fetch, the
kMeet room API, the calendar write, the npm ical library) are parameters:
each model function takes the collaborator outcome as an argument.
-/

/-- A time interval in milliseconds since the Unix epoch.  The source
represents such intervals as pairs of Date objects or ISO strings with
fields named start and end; the field end is renamed stop here because
end is a Lean keyword.  Used both for busy intervals and for generated
candidate slots, which have the same shape in the source. -/
structure Slot where
  start : Int
  stop : Int
deriving DecidableEq

/-- A configured working-hour range for one weekday, in whole hours on the
24-hour clock (source: parseTimeRanges output, objects with numeric fields
start and end). -/
structure TimeRange where
  start : Int
  stop : Int
deriving DecidableEq

/-- The three-way overlap test of generateAvailableSlots, verbatim from the
source: candidate start inside the busy interval, or candidate end inside
it, or the candidate containing the busy interval.  cs and ce are the
candidate start and end in milliseconds. -/
def slotOverlapsBusy (cs ce : Int) (b : Slot) : Bool :=
  (decide (b.start ≤ cs) && decide (cs < b.stop))
  || (decide (b.start < ce) && decide (ce ≤ b.stop))
  || (decide (cs ≤ b.start) && decide (b.stop ≤ ce))

/-- busySlots.some(busySlot => ...) in the source. -/
def isOverlapping (busySlots : List Slot) (cs ce : Int) : Bool :=
  busySlots.any (slotOverlapsBusy cs ce)

/-- The while loop of generateAvailableSlots: scan candidate start times
from cs in fixed 30-minute (1800000 ms) steps while the candidate still
fits in the range (cs + slotLengthMs <= rangeEnd), keeping the candidates
that do not overlap any busy interval.  The fuel argument bounds the
number of loop iterations; callers supply enough fuel for the loop to run
to completion (the quantity rangeEnd - slotLengthMs + 1 - cs strictly
decreases by 1800000 at each iteration, so its initial value suffices),
making the function structurally recursive and hence computable by the
kernel. -/
def scanSlotsF : Nat → Int → Int → List Slot → Int → List Slot
  | 0, _, _, _, _ => []
  | fuel + 1, rangeEnd, slotLengthMs, busySlots, cs =>
    if cs + slotLengthMs ≤ rangeEnd then
      if isOverlapping busySlots cs (cs + slotLengthMs) then
        scanSlotsF fuel rangeEnd slotLengthMs busySlots (cs + 1800000)
      else
        ⟨cs, cs + slotLengthMs⟩ ::
          scanSlotsF fuel rangeEnd slotLengthMs busySlots (cs + 1800000)
    else []

/-- generateAvailableSlots from the source.  day0 is the target date at
00:00 local time in milliseconds; for each configured range the source
anchors rangeStart and rangeEnd to the target date at the configured hour
with setHours(h, 0, 0, 0), i.e. day0 + h * 3600000 ms, then runs the
30-minute scan.  slotLengthMs is slotLengthHours * 60 * 60 * 1000 as
computed by the source.  Results are concatenated over the ranges in
configuration order, preserving scan order, exactly like the source's
sequential push into availableSlots. -/
def generateAvailableSlots (day0 : Int) (availableRanges : List TimeRange)
    (busySlots : List Slot) (slotLengthMs : Int) : List Slot :=
  availableRanges.flatMap fun range =>
    let rangeStart := day0 + range.start * 3600000
    let rangeEnd := day0 + range.stop * 3600000
    scanSlotsF ((rangeEnd - slotLengthMs + 1) - rangeStart).toNat
      rangeEnd slotLengthMs busySlots rangeStart

/-- Shifting every time argument by the same offset commutes with the
overlap test. -/
lemma slotOverlapsBusy_shift (t cs ce : Int) (b : Slot) :
    slotOverlapsBusy (cs + t) (ce + t) ⟨b.start + t, b.stop + t⟩ =
      slotOverlapsBusy cs ce b := by
  simp only [slotOverlapsBusy]
  rw [show decide (Slot.start ⟨b.start + t, b.stop + t⟩ ≤ cs + t) = decide (b.start ≤ cs) from
        decide_eq_decide.mpr (by simp),
      show decide (cs + t < Slot.stop ⟨b.start + t, b.stop + t⟩) = decide (cs < b.stop) from
        decide_eq_decide.mpr (by simp),
      show decide (Slot.start ⟨b.start + t, b.stop + t⟩ < ce + t) = decide (b.start < ce) from
        decide_eq_decide.mpr (by simp),
      show decide (ce + t ≤ Slot.stop ⟨b.start + t, b.stop + t⟩) = decide (ce ≤ b.stop) from
        decide_eq_decide.mpr (by simp),
      show decide (cs + t ≤ Slot.start ⟨b.start + t, b.stop + t⟩) = decide (cs ≤ b.start) from
        decide_eq_decide.mpr (by simp),
      show decide (Slot.stop ⟨b.start + t, b.stop + t⟩ ≤ ce + t) = decide (b.stop ≤ ce) from
        decide_eq_decide.mpr (by simp)]

/-- Shifting every time argument by the same offset commutes with the
busy-list overlap check. -/
lemma isOverlapping_shift (t : Int) (busy : List Slot) (cs ce : Int) :
    isOverlapping (busy.map fun b => ⟨b.start + t, b.stop + t⟩) (cs + t) (ce + t)
      = isOverlapping busy cs ce := by
  simp only [isOverlapping, List.any_map]
  congr 1
  funext b
  exact slotOverlapsBusy_shift t cs ce b

/-- The candidate scan is invariant under shifting all absolute times by a
common offset. -/
lemma scanSlotsF_shift (t : Int) :
    ∀ (fuel : Nat) (rangeEnd L : Int) (busy : List Slot) (cs : Int),
      scanSlotsF fuel (rangeEnd + t) L (busy.map fun b => ⟨b.start + t, b.stop + t⟩) (cs + t)
        = (scanSlotsF fuel rangeEnd L busy cs).map fun s => ⟨s.start + t, s.stop + t⟩
  | 0, _, _, _, _ => rfl
  | fuel + 1, rangeEnd, L, busy, cs => by
    simp only [scanSlotsF]
    by_cases h : cs + L ≤ rangeEnd
    · rw [if_pos (show cs + t + L ≤ rangeEnd + t by omega), if_pos h]
      rw [show cs + t + L = cs + L + t by ring, isOverlapping_shift t busy cs (cs + L)]
      have hrec := scanSlotsF_shift t fuel rangeEnd L busy (cs + 1800000)
      rw [show cs + 1800000 + t = cs + t + 1800000 by ring] at hrec
      by_cases ho : isOverlapping busy cs (cs + L) = true
      · rw [if_pos ho, if_pos ho, hrec]
      · rw [if_neg ho, if_neg ho, List.map_cons, hrec]
    · rw [if_neg (show ¬ cs + t + L ≤ rangeEnd + t by omega), if_neg h, List.map_nil]

/-- The whole generator is invariant under shifting all absolute times by a
common offset (the target date only enters through absolute anchoring). -/
lemma generateAvailableSlots_shift (t day0 : Int) (ranges : List TimeRange)
    (busy : List Slot) (L : Int) :
    generateAvailableSlots (day0 + t) ranges (busy.map fun b => ⟨b.start + t, b.stop + t⟩) L
      = (generateAvailableSlots day0 ranges busy L).map fun s => ⟨s.start + t, s.stop + t⟩ := by
  simp only [generateAvailableSlots, List.map_flatMap]
  congr 1
  funext r
  rw [show day0 + t + r.stop * 3600000 = day0 + r.stop * 3600000 + t by ring,
      show day0 + t + r.start * 3600000 = day0 + r.start * 3600000 + t by ring,
      show day0 + r.stop * 3600000 + t - L + 1 - (day0 + r.start * 3600000 + t)
        = day0 + r.stop * 3600000 - L + 1 - (day0 + r.start * 3600000) by ring]
  exact scanSlotsF_shift t _ (day0 + r.stop * 3600000) L busy (day0 + r.start * 3600000)

/-- C1 counterexample: on the concrete Monday 2025-06-02 (midnight
1748822400000 ms) with working hours 8-12, slot length 1 hour and the
single busy interval 09:00-10:00, the generator output is not the
three-slot list claimed: the half-hour-grid candidate 10:30-11:30
(1748860200000-1748863800000) is free, fits the range, and is also
returned. -/
theorem generateAvailableSlots_monday_counterexample :
    generateAvailableSlots 1748822400000 [⟨8, 12⟩]
        [⟨1748854800000, 1748858400000⟩] 3600000 =
      [⟨1748851200000, 1748854800000⟩, ⟨1748858400000, 1748862000000⟩,
       ⟨1748860200000, 1748863800000⟩, ⟨1748862000000, 1748865600000⟩]
    ∧ generateAvailableSlots 1748822400000 [⟨8, 12⟩]
        [⟨1748854800000, 1748858400000⟩] 3600000 ≠
      [⟨1748851200000, 1748854800000⟩, ⟨1748858400000, 1748862000000⟩,
       ⟨1748862000000, 1748865600000⟩] := by decide

/-- C1 amended: for any day (midnight day0, in milliseconds) with working
hours 8-12, slot length 1 hour and one busy interval 09:00-10:00, the
generator returns exactly the ordered four slots 08:00-09:00, 10:00-11:00,
10:30-11:30 and 11:00-12:00; half-hour-step candidates overlapping the
busy window (08:30-09:30, 09:00-10:00, 09:30-10:30) are excluded, but the
free half-hour-grid candidate 10:30-11:30 is included. -/
theorem generateAvailableSlots_monday_scenario (day0 : Int) :
    generateAvailableSlots day0 [⟨8, 12⟩]
        [⟨day0 + 32400000, day0 + 36000000⟩] 3600000 =
      [⟨day0 + 28800000, day0 + 32400000⟩, ⟨day0 + 36000000, day0 + 39600000⟩,
       ⟨day0 + 37800000, day0 + 41400000⟩, ⟨day0 + 39600000, day0 + 43200000⟩] := by
  have base : generateAvailableSlots 0 [⟨8, 12⟩] [⟨32400000, 36000000⟩] 3600000 =
      [⟨28800000, 32400000⟩, ⟨36000000, 39600000⟩, ⟨37800000, 41400000⟩,
       ⟨39600000, 43200000⟩] := by decide
  have key := generateAvailableSlots_shift day0 0 [⟨8, 12⟩] [⟨32400000, 36000000⟩] 3600000
  rw [base] at key
  simp only [List.map_cons, List.map_nil, zero_add] at key
  rw [show day0 + 32400000 = 32400000 + day0 by ring,
      show day0 + 36000000 = 36000000 + day0 by ring,
      show day0 + 28800000 = 28800000 + day0 by ring,
      show day0 + 39600000 = 39600000 + day0 by ring,
      show day0 + 37800000 = 37800000 + day0 by ring,
      show day0 + 41400000 = 41400000 + day0 by ring,
      show day0 + 43200000 = 43200000 + day0 by ring]
  exact key

/-- Characterisation of the scan output, given enough fuel for the loop to
run to completion: a slot is returned iff its start lies on the 30-minute
grid at or after the scan start, it has exactly the requested length, it
fits inside the range, and it passes the overlap filter. -/
lemma mem_scanSlotsF (rangeEnd L : Int) (busy : List Slot) :
    ∀ (fuel : Nat) (cs : Int), ((rangeEnd - L + 1) - cs).toNat ≤ fuel →
      ∀ s : Slot, (s ∈ scanSlotsF fuel rangeEnd L busy cs ↔
        ∃ k : Nat, s.start = cs + (k : Int) * 1800000 ∧ s.stop = s.start + L ∧
          s.stop ≤ rangeEnd ∧ isOverlapping busy s.start s.stop = false)
  | 0, cs, hfuel, s => by
    simp only [scanSlotsF, List.not_mem_nil, false_iff]
    rintro ⟨k, hk, hstop, hle, -⟩
    omega
  | fuel + 1, cs, hfuel, s => by
    simp only [scanSlotsF]
    by_cases h : cs + L ≤ rangeEnd
    · rw [if_pos h]
      have ih := mem_scanSlotsF rangeEnd L busy fuel (cs + 1800000) (by omega) s
      by_cases ho : isOverlapping busy cs (cs + L) = true
      · rw [if_pos ho, ih]
        constructor
        · rintro ⟨k, hk, hstop, hle, hov⟩
          exact ⟨k + 1, by push_cast at hk ⊢; omega, hstop, hle, hov⟩
        · rintro ⟨k, hk, hstop, hle, hov⟩
          match k with
          | 0 =>
            exfalso
            have ha : s.start = cs := by omega
            have hb : s.stop = cs + L := by omega
            rw [ha, hb] at hov
            rw [hov] at ho
            exact Bool.false_ne_true ho
          | k + 1 =>
            exact ⟨k, by push_cast at hk ⊢; omega, hstop, hle, hov⟩
      · rw [if_neg ho]
        have ho' : isOverlapping busy cs (cs + L) = false := by
          exact Bool.eq_false_iff.mpr ho
        simp only [List.mem_cons, ih]
        constructor
        · rintro (rfl | ⟨k, hk, hstop, hle, hov⟩)
          · exact ⟨0, by push_cast; ring_nf, rfl, by simpa using h, by simpa using ho'⟩
          · exact ⟨k + 1, by push_cast at hk ⊢; omega, hstop, hle, hov⟩
        · rintro ⟨k, hk, hstop, hle, hov⟩
          match k with
          | 0 =>
            left
            obtain ⟨a, b⟩ := s
            simp only [Slot.mk.injEq]
            simp only at hk hstop
            omega
          | k + 1 =>
            right
            exact ⟨k, by push_cast at hk ⊢; omega, hstop, hle, hov⟩
    · rw [if_neg h]
      simp only [List.not_mem_nil, false_iff]
      rintro ⟨k, hk, hstop, hle, -⟩
      omega

/-- Membership in the generator output, range by range. -/
lemma mem_generateAvailableSlots (day0 : Int) (ranges : List TimeRange)
    (busy : List Slot) (L : Int) (s : Slot) :
    s ∈ generateAvailableSlots day0 ranges busy L ↔
      ∃ r ∈ ranges, ∃ k : Nat,
        s.start = day0 + r.start * 3600000 + (k : Int) * 1800000 ∧
        s.stop = s.start + L ∧ s.stop ≤ day0 + r.stop * 3600000 ∧
        isOverlapping busy s.start s.stop = false := by
  simp only [generateAvailableSlots, List.mem_flatMap]
  apply exists_congr
  intro r
  apply and_congr_right
  intro hr
  exact mem_scanSlotsF (day0 + r.stop * 3600000) L busy _ (day0 + r.start * 3600000)
    (le_refl _) s

/-- C6: with a positive slot length and well-formed busy intervals, every
candidate produced by generateAvailableSlots has end minus start exactly
equal to the slot length and does not intersect any supplied busy interval
under the three-way overlap test; moreover any candidate on the 30-minute
grid of a configured range that fits the range and is disjoint from every
busy interval - in particular one that ends exactly at a busy interval
start, or starts exactly at a busy interval end - is included in the
output. -/
theorem generateAvailableSlots_sound_and_boundary
    (day0 : Int) (ranges : List TimeRange) (busy : List Slot) (L : Int)
    (hL : 0 < L) (hbusy : ∀ b ∈ busy, b.start < b.stop) :
    (∀ s ∈ generateAvailableSlots day0 ranges busy L,
        s.stop - s.start = L ∧ ∀ b ∈ busy, slotOverlapsBusy s.start s.stop b = false)
    ∧ (∀ r ∈ ranges, ∀ k : Nat, ∀ cs : Int,
        cs = day0 + r.start * 3600000 + (k : Int) * 1800000 →
        cs + L ≤ day0 + r.stop * 3600000 →
        (∀ b ∈ busy, cs + L ≤ b.start ∨ b.stop ≤ cs) →
        (⟨cs, cs + L⟩ : Slot) ∈ generateAvailableSlots day0 ranges busy L) := by
  constructor
  · intro s hs
    rw [mem_generateAvailableSlots] at hs
    obtain ⟨r, hr, k, hk, hstop, hle, hov⟩ := hs
    refine ⟨by omega, ?_⟩
    intro b hb
    simp only [isOverlapping, List.any_eq_false] at hov
    exact Bool.eq_false_iff.mpr (hov b hb)
  · intro r hr k cs hcs hfit hdisj
    rw [mem_generateAvailableSlots]
    refine ⟨r, hr, k, hcs, rfl, hfit, ?_⟩
    simp only [isOverlapping, List.any_eq_false]
    intro b hb
    have hd := hdisj b hb
    have hwf := hbusy b hb
    simp only [slotOverlapsBusy, Bool.or_eq_true, Bool.and_eq_true, decide_eq_true_eq]
    omega

theorem generateAvailableSlots_sound_and_boundary_witness :
    (⟨28800000, 32400000⟩ : Slot) ∈
      generateAvailableSlots 0 [⟨8, 12⟩] [⟨32400000, 36000000⟩] 3600000 :=
  (generateAvailableSlots_sound_and_boundary 0 [⟨8, 12⟩] [⟨32400000, 36000000⟩]
      3600000 (by decide) (by decide)).2 ⟨8, 12⟩ (by decide) 0 28800000
      (by norm_num) (by norm_num) (by decide)

/-- Weekday keys of the configuration (source type DayKey). -/
inductive DayKey where
  | MON | TUE | WED | THU | FRI | SAT | SUN
deriving DecidableEq

/-- The dayMap array of getAvailableSlotsForDay, indexed by Date.getDay()
(0 = Sunday, 1 = Monday, ...). -/
def dayMap : Fin 7 → DayKey :=
  ![DayKey.SUN, DayKey.MON, DayKey.TUE, DayKey.WED, DayKey.THU, DayKey.FRI,
    DayKey.SAT]

/-- The calendar configuration fields the availability computation reads
(source getCalendarConfig): per-weekday working-hour ranges and the list
of allowed slot lengths in hours.  The CalDAV connection fields are only
used by the external fetch collaborator and are not modelled. -/
structure CalendarConfig where
  availableSlots : DayKey → List TimeRange
  slotLengths : List ℚ

/-- Error classes of getAvailableSlotsForDay.  The outer catch of the
source re-throws every error with a Failed-to-get-available-slots message
prefix, which preserves the error class; the model keeps the structured
class. -/
inductive SlotsError where
  | invalidSlotLength
  | calendarError (msg : String)
deriving DecidableEq

/-- Slot length in hours to milliseconds (slotLengthHours * 60 * 60 * 1000
in the source; exact for the half-hour-aligned lengths in use). -/
def hoursToMs (q : ℚ) : Int := ⌊q * 3600000⌋

/-- getAvailableSlotsForDay from the source.  dow is date.getDay()
(0 = Sunday); day0 is the date at local midnight in milliseconds; fetched
is the combined outcome of the external calendar fetch and the per-event
busy projection (fetchCalendarEventsForDay plus parseEventsToTimeRanges),
treated as a collaborator: an error models a thrown fetch failure.  The
function first validates the requested slot length against the configured
allowed lengths, then resolves the weekday ranges and returns the empty
list without consulting the fetch outcome when none are configured, and
otherwise feeds the busy intervals to the generator. -/
def getAvailableSlotsForDay (cfg : CalendarConfig) (dow : Fin 7) (day0 : Int)
    (fetched : Except String (List Slot)) (slotLength : ℚ) :
    Except SlotsError (List Slot) :=
  if slotLength ∈ cfg.slotLengths then
    let availableRanges := cfg.availableSlots (dayMap dow)
    if availableRanges.isEmpty then .ok []
    else
      match fetched with
      | .error msg => .error (.calendarError msg)
      | .ok busySlots =>
          .ok (generateAvailableSlots day0 availableRanges busySlots
            (hoursToMs slotLength))
  else .error .invalidSlotLength

/-- Whether the control flow of getAvailableSlotsForDay reaches the remote
fetch call: only after the slot length passed validation and the weekday
has at least one configured range. -/
def remoteFetchInvoked (cfg : CalendarConfig) (dow : Fin 7)
    (slotLength : ℚ) : Bool :=
  decide (slotLength ∈ cfg.slotLengths)
    && !(cfg.availableSlots (dayMap dow)).isEmpty

/-- A small concrete configuration used by the closed witness theorems:
Monday 8-12, every other weekday empty, allowed slot lengths 0.5 and 1
hour. -/
def demoConfig : CalendarConfig where
  availableSlots := fun d =>
    match d with
    | DayKey.MON => [⟨8, 12⟩]
    | _ => []
  slotLengths := [1 / 2, 1]

/-- C7: a requested slot length outside the configured allowed lengths
makes getAvailableSlotsForDay fail with the invalid-slot-length error, for
every configuration, weekday, day and fetch outcome, instead of returning
a slot list. -/
theorem getAvailableSlotsForDay_invalid_slot_length
    (cfg : CalendarConfig) (dow : Fin 7) (day0 : Int)
    (fetched : Except String (List Slot)) (slotLength : ℚ)
    (h : slotLength ∉ cfg.slotLengths) :
    getAvailableSlotsForDay cfg dow day0 fetched slotLength =
      .error .invalidSlotLength := by
  simp only [getAvailableSlotsForDay, if_neg h]

theorem getAvailableSlotsForDay_invalid_slot_length_witness :
    getAvailableSlotsForDay demoConfig 1 0 (.ok []) 2 =
      .error .invalidSlotLength :=
  getAvailableSlotsForDay_invalid_slot_length demoConfig 1 0 (.ok []) 2
    (by norm_num [demoConfig])

/-- C8: when the weekday of the requested date has no configured ranges
and the requested slot length is allowed, getAvailableSlotsForDay returns
the empty list for every fetch outcome (in particular also for a failing
fetch, so the result is independent of the remote collaborator), and the
control flow never reaches the remote fetch. -/
theorem getAvailableSlotsForDay_no_ranges
    (cfg : CalendarConfig) (dow : Fin 7) (day0 : Int)
    (fetched : Except String (List Slot)) (slotLength : ℚ)
    (hlen : slotLength ∈ cfg.slotLengths)
    (hempty : cfg.availableSlots (dayMap dow) = []) :
    getAvailableSlotsForDay cfg dow day0 fetched slotLength = .ok []
    ∧ remoteFetchInvoked cfg dow slotLength = false := by
  constructor
  · simp [getAvailableSlotsForDay, hlen, hempty]
  · simp [remoteFetchInvoked, hempty]

theorem getAvailableSlotsForDay_no_ranges_witness :
    getAvailableSlotsForDay demoConfig 2 0 (.error "fetch failed") 1 = .ok []
    ∧ remoteFetchInvoked demoConfig 2 1 = false :=
  getAvailableSlotsForDay_no_ranges demoConfig 2 0 (.error "fetch failed") 1
    (by norm_num [demoConfig]) (by simp [demoConfig, dayMap])

/-- Math.round: round half towards positive infinity. -/
def jsRound (q : ℚ) : Int := ⌊q + 1 / 2⌋

/-- The ToIntegerOrInfinity coercion (truncation towards zero) that
Date.prototype.setHours applies to its hour argument. -/
def jsTrunc (q : ℚ) : Int := if 0 ≤ q then ⌊q⌋ else ⌈q⌉

/-- The endTime computation of bookMeeting.  The source copies startTime
and calls endTime.setHours(endTime.getHours() + params.duration):
getHours() is the integral local hour of the start in the process
timezone (startLocalHour here), the sum is truncated to an integer by
setHours, and the date is moved by the resulting whole-hour difference. -/
def bookEndTimeMs (startMs startLocalHour : Int) (duration : ℚ) : Int :=
  startMs + (jsTrunc ((startLocalHour : ℚ) + duration) - startLocalHour) * 3600000

/-- UTC day index of an instant.  The source compares the date parts of
toISOString() of two instants; two instants have equal ISO date parts iff
they have the same floored day index since the epoch. -/
def utcDayNumber (ms : Int) : Int := Int.fdiv ms 86400000

/-- Outcome of the createMeetingRoom collaborator: the apiRequest helper
threw (transport or non-2xx response), or it returned a CreateRoomResponse
whose error field is either set (an API-level error, carrying its message)
or absent (success, carrying the result url and id). -/
inductive RoomOutcome where
  | threw (msg : String)
  | returned (err : Option String) (url id : String)
deriving DecidableEq

/-- Outcome of the createCalendarEvent collaborator. -/
inductive EventOutcome where
  | threw (msg : String)
  | ok (id : String)
deriving DecidableEq

/-- Failure classes of bookMeeting: invalid start time, unavailable slot,
start and end on different days, room creation reporting an API error, or
an exception absorbed by the surrounding catch (which yields success false
with a Failed-to-book-meeting message). -/
inductive BookError where
  | invalidStart
  | slotUnavailable
  | crossDay
  | roomFailed (msg : String)
  | caught (msg : String)
deriving DecidableEq

/-- A bookMeeting run: the returned result (on success the meeting url and
id), whether the room-creation call was made, whether the calendar-event
call was made, and the start and end instants passed to room creation. -/
structure BookOutcome where
  result : Except BookError (String × String)
  roomCalled : Bool
  eventCalled : Bool
  roomArgs : Option (Int × Int)

/-- bookMeeting from the source.  startMs? is the parse of params.start
(none when the Date is invalid); startLocalHour is getHours() of the
parsed start; duration is params.duration in hours; avail is the outcome
of the getAvailableSlotsForDay call (an error models a throw, absorbed by
the outer catch); room and calEvent are the external collaborator
outcomes.  The slot comparison in the source is string equality between
slot.start and startTime.toISOString() plus millisecond-duration equality
against Math.round(duration * 60 * 60 * 1000); both sides of the string
comparison are canonical ISO strings, modelled as integer equality. -/
def bookMeeting (startMs? : Option Int) (startLocalHour : Int) (duration : ℚ)
    (avail : Except String (List Slot)) (room : RoomOutcome)
    (calEvent : EventOutcome) : BookOutcome :=
  match startMs? with
  | none => ⟨.error .invalidStart, false, false, none⟩
  | some startMs =>
    let endMs := bookEndTimeMs startMs startLocalHour duration
    match avail with
    | .error msg => ⟨.error (.caught msg), false, false, none⟩
    | .ok availableSlots =>
      let requestedDuration := jsRound (duration * 3600000)
      let isSlotAvailable := availableSlots.any fun slot =>
        decide (slot.start = startMs)
          && decide (slot.stop - slot.start = requestedDuration)
      if !isSlotAvailable then ⟨.error .slotUnavailable, false, false, none⟩
      else if utcDayNumber startMs ≠ utcDayNumber endMs then
        ⟨.error .crossDay, false, false, none⟩
      else
        match room with
        | .threw msg => ⟨.error (.caught msg), true, false, some (startMs, endMs)⟩
        | .returned (some e) _ _ =>
            ⟨.error (.roomFailed e), true, false, some (startMs, endMs)⟩
        | .returned none url id =>
            match calEvent with
            | .threw msg =>
                ⟨.error (.caught msg), true, true, some (startMs, endMs)⟩
            | .ok _ => ⟨.ok (url, id), true, true, some (startMs, endMs)⟩

/-- C4: with the availability call returning a candidate list, the booking
proceeds to room creation only if some candidate matches the requested
start exactly and the requested duration (in rounded milliseconds)
exactly; when no candidate matches, bookMeeting fails with the
slot-unavailable error and neither the room-creation nor the
calendar-event call is made. -/
theorem bookMeeting_requires_exact_match
    (startMs startLocalHour : Int) (duration : ℚ) (slots : List Slot)
    (room : RoomOutcome) (calEvent : EventOutcome) :
    ((∀ s ∈ slots,
        ¬(s.start = startMs ∧ s.stop - s.start = jsRound (duration * 3600000))) →
      bookMeeting (some startMs) startLocalHour duration (.ok slots) room calEvent
        = ⟨.error .slotUnavailable, false, false, none⟩)
    ∧ ((bookMeeting (some startMs) startLocalHour duration (.ok slots) room
          calEvent).roomCalled = true →
        ∃ s ∈ slots,
          s.start = startMs ∧ s.stop - s.start = jsRound (duration * 3600000)) := by
  constructor
  · intro hno
    have hfalse : (slots.any fun slot =>
        decide (slot.start = startMs)
          && decide (slot.stop - slot.start = jsRound (duration * 3600000))) = false := by
      simp only [List.any_eq_false, Bool.and_eq_true, decide_eq_true_eq, not_and]
      intro s hs h1
      exact fun h2 => hno s hs ⟨h1, h2⟩
    simp [bookMeeting, hfalse]
  · intro hroom
    by_cases hany : (slots.any fun slot =>
        decide (slot.start = startMs)
          && decide (slot.stop - slot.start = jsRound (duration * 3600000))) = true
    · rw [List.any_eq_true] at hany
      obtain ⟨s, hs, hp⟩ := hany
      simp only [Bool.and_eq_true, decide_eq_true_eq] at hp
      exact ⟨s, hs, hp⟩
    · exfalso
      rw [Bool.not_eq_true] at hany
      rw [show bookMeeting (some startMs) startLocalHour duration (.ok slots) room
            calEvent = ⟨.error .slotUnavailable, false, false, none⟩ by
          simp [bookMeeting, hany]] at hroom
      exact Bool.false_ne_true hroom

theorem bookMeeting_requires_exact_match_witness :
    bookMeeting (some 1800000) 0 1 (.ok [⟨0, 3600000⟩])
        (.returned none "url" "id") (.ok "event")
      = ⟨.error .slotUnavailable, false, false, none⟩ :=
  (bookMeeting_requires_exact_match 1800000 0 1 [⟨0, 3600000⟩]
      (.returned none "url" "id") (.ok "event")).1 (by norm_num [jsRound])

/-- C5: when the booking passes the availability check and the cross-day
check and the meeting-room API returns an API-level error, bookMeeting
aborts with the room-creation-failed result carrying that error message;
the room call was made, the calendar-event collaborator is never invoked
(for every possible behaviour of it), and no success is reported. -/
theorem bookMeeting_room_error_aborts
    (startMs startLocalHour : Int) (duration : ℚ) (slots : List Slot)
    (e url id : String) (calEvent : EventOutcome)
    (hmatch : ∃ s ∈ slots,
      s.start = startMs ∧ s.stop - s.start = jsRound (duration * 3600000))
    (hday : utcDayNumber startMs
      = utcDayNumber (bookEndTimeMs startMs startLocalHour duration)) :
    bookMeeting (some startMs) startLocalHour duration (.ok slots)
        (.returned (some e) url id) calEvent
      = ⟨.error (.roomFailed e), true, false,
          some (startMs, bookEndTimeMs startMs startLocalHour duration)⟩ := by
  have hany : (slots.any fun slot =>
      decide (slot.start = startMs)
        && decide (slot.stop - slot.start = jsRound (duration * 3600000))) = true := by
    rw [List.any_eq_true]
    obtain ⟨s, hs, h1, h2⟩ := hmatch
    subst h1
    exact ⟨s, hs, by simp [h2]⟩
  simp [bookMeeting, hany, hday]

theorem bookMeeting_room_error_aborts_witness :
    bookMeeting (some 0) 0 1 (.ok [⟨0, 3600000⟩])
        (.returned (some "quota exceeded") "url" "id") (.ok "event")
      = ⟨.error (.roomFailed "quota exceeded"), true, false,
          some (0, bookEndTimeMs 0 0 1)⟩ :=
  bookMeeting_room_error_aborts 0 0 1 [⟨0, 3600000⟩] "quota exceeded" "url" "id"
    (.ok "event") ⟨⟨0, 3600000⟩, by norm_num [jsRound]⟩
    (by rw [show bookEndTimeMs 0 0 1 = 3600000 by norm_num [bookEndTimeMs, jsTrunc]]
        decide)

/-- C3 failing input: booking start 2025-06-02T08:00:00Z (1748851200000 ms,
local hour 8 in a UTC process timezone) with the allowed fractional
duration 0.5 hours.  setHours truncates getHours() + 0.5 = 8.5 to the
integer 8, so the computed endTime equals the start instead of start plus
30 minutes; the matching half-hour candidate passes the availability
check, the cross-day check trivially passes, and room creation is invoked
with a zero-length interval.  The third conjunct states the endTime the
claim prescribes, 30 minutes after the start. -/
theorem bookMeeting_fractional_duration_endTime_bug :
    bookEndTimeMs 1748851200000 8 (1 / 2) = 1748851200000
    ∧ (bookMeeting (some 1748851200000) 8 (1 / 2)
          (.ok [⟨1748851200000, 1748853000000⟩]) (.returned none "url" "id")
          (.ok "event")).roomArgs = some (1748851200000, 1748851200000)
    ∧ (1748851200000 : Int) + hoursToMs (1 / 2) = 1748853000000 := by
  have hend : bookEndTimeMs 1748851200000 8 (1 / 2) = 1748851200000 := by
    norm_num [bookEndTimeMs, jsTrunc]
  refine ⟨hend, ?_, by norm_num [hoursToMs]⟩
  have hany : (([⟨1748851200000, 1748853000000⟩] : List Slot).any fun slot =>
      decide (slot.start = (1748851200000 : Int))
        && decide (slot.stop - slot.start = jsRound ((1 / 2 : ℚ) * 3600000))) = true := by
    norm_num [jsRound]
  simp only [bookMeeting]
  rw [hany, hend]
  simp

/-- A decoded JavaScript Date as produced by parseICalDate: utcDate
represents Date.UTC(year, month0, day, hour, minute, second) (the compact
UTC form, and the extended ISO UTC form parsed by the Date constructor),
localDate represents new Date(year, month0, day, hour, minute, second) in
local time (the compact form without the Z suffix).  month0 is the
zero-based month exactly as passed by the source (parsed month minus
one). -/
inductive JsDate where
  | utcDate (year month0 day hour minute second : Int)
  | localDate (year month0 day hour minute second : Int)
deriving DecidableEq

/-- parseInt on a digit-only substring. -/
def digitsToInt (l : List Char) : Int :=
  (l.foldl (fun acc c => acc * 10 + (c.toNat - 48)) 0 : Nat)

/-- Shape test of the first parseICalDate regex: eight digits, a literal
T, six digits, a literal Z. -/
def isCompactUTCShape : List Char → Bool
  | [y1, y2, y3, y4, mo1, mo2, d1, d2, 'T', h1, h2, mi1, mi2, s1, s2, 'Z'] =>
    [y1, y2, y3, y4, mo1, mo2, d1, d2, h1, h2, mi1, mi2, s1, s2].all Char.isDigit
  | _ => false

/-- Shape test of the second regex: eight digits, a literal T, six
digits, no suffix. -/
def isCompactLocalShape : List Char → Bool
  | [y1, y2, y3, y4, mo1, mo2, d1, d2, 'T', h1, h2, mi1, mi2, s1, s2] =>
    [y1, y2, y3, y4, mo1, mo2, d1, d2, h1, h2, mi1, mi2, s1, s2].all Char.isDigit
  | _ => false

/-- Shape test of the third regex: the extended ISO UTC form
YYYY-MM-DDThh:mm:ssZ. -/
def isIsoUtcShape : List Char → Bool
  | [y1, y2, y3, y4, '-', mo1, mo2, '-', d1, d2, 'T',
     h1, h2, ':', mi1, mi2, ':', s1, s2, 'Z'] =>
    [y1, y2, y3, y4, mo1, mo2, d1, d2, h1, h2, mi1, mi2, s1, s2].all Char.isDigit
  | _ => false

/-- parseICalDate from the source: exactly three accepted token shapes,
decoded by fixed-position substrings (compact forms: positions 0-4, 4-6,
6-8, 9-11, 11-13, 13-15; ISO form: the Date constructor on the string,
equivalent to its fixed component positions).  Every other shape returns
none (undefined in the source), not an error. -/
def parseICalDate (dateStr : String) : Option JsDate :=
  let l := dateStr.data
  if isCompactUTCShape l then
    some (.utcDate (digitsToInt (l.take 4)) (digitsToInt ((l.drop 4).take 2) - 1)
      (digitsToInt ((l.drop 6).take 2)) (digitsToInt ((l.drop 9).take 2))
      (digitsToInt ((l.drop 11).take 2)) (digitsToInt ((l.drop 13).take 2)))
  else if isCompactLocalShape l then
    some (.localDate (digitsToInt (l.take 4)) (digitsToInt ((l.drop 4).take 2) - 1)
      (digitsToInt ((l.drop 6).take 2)) (digitsToInt ((l.drop 9).take 2))
      (digitsToInt ((l.drop 11).take 2)) (digitsToInt ((l.drop 13).take 2)))
  else if isIsoUtcShape l then
    some (.utcDate (digitsToInt (l.take 4)) (digitsToInt ((l.drop 5).take 2) - 1)
      (digitsToInt ((l.drop 8).take 2)) (digitsToInt ((l.drop 11).take 2))
      (digitsToInt ((l.drop 14).take 2)) (digitsToInt ((l.drop 17).take 2)))
  else none

/-- The CalendarEvent record of the parser module, all fields optional.
The source field names start and end become start? and stop?. -/
structure CalendarEvent where
  start? : Option JsDate := none
  stop? : Option JsDate := none
  summary? : Option String := none
deriving DecidableEq

/-- The usability gate parseEventsToTimeRanges applies before an event
contributes a busy interval: both start and end must be present. -/
def isUsable (e : CalendarEvent) : Bool := e.start?.isSome && e.stop?.isSome

/-- Consume an expected literal prefix, returning the remainder. -/
def consumeLit : List Char → List Char → Option (List Char)
  | [], l => some l
  | _ :: _, [] => none
  | p :: ps, c :: cs => if p = c then consumeLit ps cs else none

/-- The mandatory colon right before the captured group. -/
def consumeColon : List Char → Option (List Char)
  | [] => none
  | c :: rest => if c = ':' then some rest else none

/-- The optional group (?:;TZID=[^:]+)? followed by the colon.  When
;TZID= is present the regex commits to the group (backtracking to the
empty alternative would require a colon at the semicolon, which cannot
match), consuming the maximal nonempty colon-free run and the colon after
it; otherwise the colon must follow the field name directly. -/
def consumeTZID (l : List Char) : Option (List Char) :=
  match consumeLit ";TZID=".data l with
  | some rest =>
    let run := rest.takeWhile (fun c => ¬ c = ':')
    if run.isEmpty then none
    else consumeColon (rest.drop run.length)
  | none => consumeColon l

/-- The lazy capture (.*?) followed by (?:\r?\n): the dot matches neither
carriage return nor line feed, and laziness stops the capture at the
first line terminator.  A carriage return not followed by a line feed can
neither be captured nor complete the terminator, and the end of input has
no terminator at all, so both make the match attempt fail. -/
def lineCapture : List Char → Option (List Char)
  | [] => none
  | c :: rest =>
    if c = '\n' then some []
    else if c = '\r' then
      if rest.head? = some '\n' then some [] else none
    else (lineCapture rest).map (fun cap => c :: cap)

/-- One attempt to match FIELD(?:;TZID=[^:]+)?:(.*?)(?:\r?\n) at the
head of l.  tzid selects whether the optional TZID group is part of the
pattern (true for DTSTART and DTEND, false for SUMMARY). -/
def fieldMatchAt (field : List Char) (tzid : Bool) (l : List Char) :
    Option (List Char) :=
  match consumeLit field l with
  | none => none
  | some r1 =>
    match (if tzid then consumeTZID r1 else consumeColon r1) with
    | none => none
    | some r2 => lineCapture r2

/-- Leftmost regex match over the whole text: try the pattern at every
start position, earliest first, as the JavaScript regex engine does. -/
def fieldMatch (field : List Char) (tzid : Bool) : List Char → Option (List Char)
  | [] => none
  | c :: rest =>
    match fieldMatchAt field tzid (c :: rest) with
    | some cap => some cap
    | none => fieldMatch field tzid rest

/-- Substring containment: String.prototype.includes of the source. -/
def containsSub : List Char → List Char → Bool
  | [], pat => pat.isEmpty
  | l@(_ :: rest), pat => (consumeLit pat l).isSome || containsSub rest pat

/-- icsData.includes(pat). -/
def strIncludes (s pat : String) : Bool := containsSub s.data pat.data

/-- The truthiness gate the source applies to each capture group before
decoding: an empty capture is falsy and treated as absent. -/
def capToDate (cap : Option (List Char)) : Option JsDate :=
  match cap with
  | some c => if c.isEmpty then none else parseICalDate (String.mk c)
  | none => none

/-- manualExtractEventData from the source: regex extraction of DTSTART
and DTEND (both with the optional TZID parameter) and SUMMARY over the
raw text, each field independently optional. -/
def manualExtractEventData (icsData : String) : CalendarEvent where
  start? := capToDate (fieldMatch ("DTSTART".data) true icsData.data)
  stop? := capToDate (fieldMatch ("DTEND".data) true icsData.data)
  summary? :=
    match fieldMatch ("SUMMARY".data) false icsData.data with
    | some c => if c.isEmpty then none else some (String.mk c)
    | none => none

/-- One record of the parse result of the external npm ical library: its
type tag (whether type is VEVENT) and the fields the source reads. -/
structure ICalRecord where
  isVEvent : Bool
  start? : Option JsDate
  stop? : Option JsDate
  summary? : Option String

/-- Outcome of the external ical library call, a collaborator parameter:
parseICalString either throws or returns its records in key order. -/
inductive PrimaryParse where
  | throws
  | parsed (records : List ICalRecord)

/-- parseICS from the source.  An empty blob, or one missing the
BEGIN:VEVENT marker or the END:VEVENT marker, returns the empty event
immediately; the manual regex fallback is not consulted on this path.
Otherwise the primary library parser runs: if it throws, or yields no
VEVENT record, or the first VEVENT record lacks a start or an end, the
manual regex fallback is used; otherwise the record fields are
returned. -/
def parseICS (icsData : String) (primary : PrimaryParse) : CalendarEvent :=
  if icsData.isEmpty || !strIncludes icsData "BEGIN:VEVENT"
      || !strIncludes icsData "END:VEVENT" then
    {}
  else
    match primary with
    | .throws => manualExtractEventData icsData
    | .parsed records =>
      match records.find? (fun r => r.isVEvent) with
      | none => manualExtractEventData icsData
      | some ev =>
        match ev.start?, ev.stop? with
        | some s, some e =>
            { start? := some s, stop? := some e, summary? := ev.summary? }
        | _, _ => manualExtractEventData icsData

/-- C9: the date-token decoder accepts exactly the three shapes compact
UTC, compact local and extended ISO UTC - a token yields a value iff it
has one of those shapes, and every other shape yields none rather than an
error.  Compact UTC tokens decode as UTC instants and compact local
tokens as local-time instants (the two JsDate constructors); in
particular 20250602T080000Z decodes to the UTC instant 2025-06-02T08:00:00Z
(utcDate 2025 5 2 8 0 0, with zero-based month) and 20250602T090000Z to
2025-06-02T09:00:00Z. -/
theorem parseICalDate_shapes :
    (∀ s : String, (parseICalDate s).isSome
        = ((isCompactUTCShape s.data || isCompactLocalShape s.data)
            || isIsoUtcShape s.data))
    ∧ parseICalDate "20250602T080000Z" = some (.utcDate 2025 5 2 8 0 0)
    ∧ parseICalDate "20250602T090000Z" = some (.utcDate 2025 5 2 9 0 0)
    ∧ parseICalDate "20250602T080000" = some (.localDate 2025 5 2 8 0 0)
    ∧ parseICalDate "2025-06-02T08:00:00Z" = some (.utcDate 2025 5 2 8 0 0) := by
  refine ⟨?_, by decide, by decide, by decide, by decide⟩
  intro s
  unfold parseICalDate
  cases h1 : isCompactUTCShape s.data <;> cases h2 : isCompactLocalShape s.data <;>
    cases h3 : isIsoUtcShape s.data <;> simp [h1, h2, h3]

/-- C2 counterexample: a concrete blob without the BEGIN:VEVENT and
END:VEVENT markers but with well-formed bare DTSTART and DTEND lines.
parseICS returns the empty descriptor (start and end both absent, for the
throwing primary outcome - the primary parser is not even reached on this
path), although the regex fallback applied to the same blob would extract
both instants; so the fallback path is not taken and no usable
EventDescriptor is produced, contrary to the claim. -/
theorem parseICS_missing_markers_counterexample :
    strIncludes "DTSTART:20250602T080000Z\nDTEND:20250602T090000Z\n"
        "BEGIN:VEVENT" = false
    ∧ strIncludes "DTSTART:20250602T080000Z\nDTEND:20250602T090000Z\n"
        "END:VEVENT" = false
    ∧ parseICS "DTSTART:20250602T080000Z\nDTEND:20250602T090000Z\n" .throws
        = { start? := none, stop? := none, summary? := none }
    ∧ (manualExtractEventData
          "DTSTART:20250602T080000Z\nDTEND:20250602T090000Z\n").start?
        = some (.utcDate 2025 5 2 8 0 0)
    ∧ (manualExtractEventData
          "DTSTART:20250602T080000Z\nDTEND:20250602T090000Z\n").stop?
        = some (.utcDate 2025 5 2 9 0 0) := by
  exact ⟨by decide, by decide, by decide, by decide, by decide⟩

/-- C2 amended: a blob lacking the BEGIN:VEVENT marker or the END:VEVENT
marker makes parseICS return the empty descriptor for every primary
parser outcome, regardless of any bare DTSTART and DTEND lines it
contains; the regex fallback runs only when the primary decode throws, no
VEVENT record is found, or the record lacks a start or an end. -/
theorem parseICS_missing_markers_empty (icsData : String)
    (primary : PrimaryParse)
    (h : strIncludes icsData "BEGIN:VEVENT" = false
      ∨ strIncludes icsData "END:VEVENT" = false) :
    parseICS icsData primary = {} := by
  unfold parseICS
  rcases h with h | h <;> simp [h]

theorem parseICS_missing_markers_empty_witness :
    parseICS "DTSTART:20250602T080000Z\nDTEND:20250602T090000Z\nSUMMARY:Call\n"
        .throws = {} :=
  parseICS_missing_markers_empty _ _ (Or.inl (by decide))

/-- A successful literal consume decomposes the input. -/
lemma consumeLit_eq_append :
    ∀ p l r, consumeLit p l = some r → l = p ++ r
  | [], l, r => by intro h; simp [consumeLit] at h; simp [h]
  | p :: ps, [], r => by intro h; simp [consumeLit] at h
  | p :: ps, c :: cs, r => by
    intro h
    unfold consumeLit at h
    by_cases hpc : p = c
    · rw [if_pos hpc] at h
      have := consumeLit_eq_append ps cs r h
      simp [hpc, this]
    · rw [if_neg hpc] at h
      exact absurd h (by simp)

/-- Conversely, a literal prefix is always consumed. -/
lemma consumeLit_append : ∀ p r : List Char, consumeLit p (p ++ r) = some r
  | [], r => rfl
  | p :: ps, r => by
    unfold consumeLit
    simp [consumeLit_append ps r]

/-- A successful colon consume decomposes the input. -/
lemma consumeColon_eq (l r : List Char) (h : consumeColon l = some r) :
    l = ':' :: r := by
  cases l with
  | nil => simp [consumeColon] at h
  | cons c rest =>
    simp only [consumeColon] at h
    by_cases hc : c = ':'
    · rw [if_pos hc] at h
      simp only [Option.some.injEq] at h
      rw [hc, h]
    · rw [if_neg hc] at h
      exact absurd h (by simp)

/-- The remainder after the optional TZID group is a suffix of the
input. -/
lemma consumeTZID_suffix (l r : List Char) (h : consumeTZID l = some r) :
    r <:+ l := by
  unfold consumeTZID at h
  cases hc : consumeLit (";TZID=".data) l with
  | none =>
    rw [hc] at h
    rw [consumeColon_eq l r h]
    exact ⟨[':'], rfl⟩
  | some rest =>
    rw [hc] at h
    simp only at h
    by_cases he : (rest.takeWhile (fun c => ¬ c = ':')).isEmpty
    · rw [if_pos he] at h
      exact absurd h (by simp)
    · rw [if_neg he] at h
      have h1 := consumeColon_eq _ _ h
      have h2 : r <:+ rest := by
        have hd : rest.drop (rest.takeWhile (fun c => ¬ c = ':')).length <:+ rest :=
          List.drop_suffix _ _
        rw [h1] at hd
        exact List.IsSuffix.trans ⟨[':'], rfl⟩ hd
      have h3 : rest <:+ l := by
        rw [consumeLit_eq_append _ _ _ hc]
        exact List.suffix_append _ _
      exact h2.trans h3

/-- A successful lazy capture requires a line feed in the input. -/
lemma lineCapture_some_newline (l : List Char) :
    ∀ cap, lineCapture l = some cap → '\n' ∈ l := by
  induction l with
  | nil => intro cap h; simp [lineCapture] at h
  | cons c rest ih =>
    intro cap h
    unfold lineCapture at h
    by_cases h1 : c = '\n'
    · exact h1 ▸ List.mem_cons_self c rest
    · rw [if_neg h1] at h
      by_cases h2 : c = '\r'
      · rw [if_pos h2] at h
        by_cases h3 : rest.head? = some '\n'
        · cases rest with
          | nil => simp at h3
          | cons d rest2 =>
            simp only [List.head?_cons, Option.some.injEq] at h3
            exact h3 ▸ List.mem_cons_of_mem _ (List.mem_cons_self _ _)
        · rw [if_neg h3] at h
          exact absurd h (by simp)
      · rw [if_neg h2] at h
        rw [Option.map_eq_some'] at h
        obtain ⟨cap0, hc0, -⟩ := h
        exact List.mem_cons_of_mem _ (ih cap0 hc0)

/-- A successful match attempt needs a line feed at or after its start
position. -/
lemma fieldMatchAt_some_newline (field : List Char) (tzid : Bool)
    (l cap : List Char) (h : fieldMatchAt field tzid l = some cap) :
    '\n' ∈ l := by
  unfold fieldMatchAt at h
  cases hc : consumeLit field l with
  | none => rw [hc] at h; exact absurd h (by simp)
  | some r1 =>
    rw [hc] at h
    simp only at h
    cases ht : (if tzid then consumeTZID r1 else consumeColon r1) with
    | none => rw [ht] at h; exact absurd h (by simp)
    | some r2 =>
      rw [ht] at h
      simp only at h
      have hmem : '\n' ∈ r2 := lineCapture_some_newline r2 cap h
      have hr2 : '\n' ∈ r1 := by
        cases tzid with
        | true =>
          rw [if_pos rfl] at ht
          exact (consumeTZID_suffix r1 r2 ht).subset hmem
        | false =>
          rw [if_neg (by simp)] at ht
          rw [consumeColon_eq r1 r2 ht]
          exact List.mem_cons_of_mem _ hmem
      rw [consumeLit_eq_append field l r1 hc]
      exact List.mem_append_right _ hr2

/-- A successful match attempt starts with the field name. -/
lemma fieldMatchAt_some_field_prefix (field : List Char) (tzid : Bool)
    (l cap : List Char) (h : fieldMatchAt field tzid l = some cap) :
    ∃ r, l = field ++ r := by
  unfold fieldMatchAt at h
  cases hc : consumeLit field l with
  | none => rw [hc] at h; exact absurd h (by simp)
  | some r1 => exact ⟨r1, consumeLit_eq_append field l r1 hc⟩

/-- Without any line feed in the text no field line can match. -/
lemma fieldMatch_none_of_no_newline (field : List Char) (tzid : Bool) :
    ∀ l, '\n' ∉ l → fieldMatch field tzid l = none := by
  intro l
  induction l with
  | nil => intro _; rfl
  | cons c rest ih =>
    intro h
    have hat : fieldMatchAt field tzid (c :: rest) = none := by
      cases hm : fieldMatchAt field tzid (c :: rest) with
      | none => rfl
      | some cap => exact absurd (fieldMatchAt_some_newline _ _ _ _ hm) h
    simp only [fieldMatch, hat]
    exact ih (fun hmem => h (List.mem_cons_of_mem _ hmem))

/-- Core of C10: if the text decomposes as pre ++ last where pre is empty
or ends in a line feed, the field token does not occur inside pre, the
field token contains no line feed, and the final segment last contains no
line feed, then the field regex matches nowhere in the text: a match
inside last would need a terminator, and a match straddling the boundary
would force the final line feed of pre into the field token. -/
lemma fieldMatch_none_structure (field : List Char) (tzid : Bool)
    (hfield : '\n' ∉ field) :
    ∀ pre last : List Char,
      (pre = [] ∨ pre.getLast? = some '\n') →
      containsSub pre field = false →
      '\n' ∉ last →
      fieldMatch field tzid (pre ++ last) = none := by
  intro pre
  induction pre with
  | nil =>
    intro last _ _ hlast
    exact fieldMatch_none_of_no_newline field tzid last hlast
  | cons c pre ih =>
    intro last hpre hnof hlast
    simp only [containsSub, Bool.or_eq_false_iff] at hnof
    obtain ⟨hhead, htail⟩ := hnof
    have hlastNL : (c :: pre).getLast? = some '\n' := by
      rcases hpre with h | h
      · exact absurd h (by simp)
      · exact h
    have hat : fieldMatchAt field tzid (c :: pre ++ last) = none := by
      cases hm : fieldMatchAt field tzid (c :: pre ++ last) with
      | none => rfl
      | some cap =>
        exfalso
        obtain ⟨r, hr⟩ := fieldMatchAt_some_field_prefix _ _ _ _ hm
        by_cases hlen : field.length ≤ (c :: pre).length
        · have h1 : ((c :: pre) ++ last).take field.length
              = (c :: pre).take field.length :=
            List.take_append_of_le_length hlen
          have h2 : ((c :: pre) ++ last).take field.length = field := by
            rw [show (c :: pre) ++ last = field ++ r from hr]
            exact List.take_left field r
          have htake : (c :: pre).take field.length = field := by
            rw [← h1, h2]
          have h3 : c :: pre = field ++ (c :: pre).drop field.length := by
            conv_lhs => rw [← List.take_append_drop field.length (c :: pre)]
            rw [htake]
          rw [h3, consumeLit_append] at hhead
          exact absurd hhead (by simp)
        · push_neg at hlen
          have h1 : ((c :: pre) ++ last).take (c :: pre).length = c :: pre :=
            List.take_left _ _
          have h2 : ((c :: pre) ++ last).take (c :: pre).length
              = field.take (c :: pre).length := by
            rw [show (c :: pre) ++ last = field ++ r from hr]
            exact List.take_append_of_le_length (le_of_lt hlen)
          have h3 : '\n' ∈ c :: pre := by
            obtain ⟨hne, hx⟩ :=
              List.mem_getLast?_eq_getLast (Option.mem_def.mpr hlastNL)
            rw [hx]
            exact List.getLast_mem hne
          have h4 : '\n' ∈ field.take (c :: pre).length := by
            rw [← h2, h1]
            exact h3
          exact hfield (List.take_subset _ _ h4)
    show fieldMatch field tzid ((c :: pre) ++ last) = none
    simp only [List.cons_append, fieldMatch, List.append_eq]
    rw [show fieldMatchAt field tzid (c :: (pre ++ last)) = none from hat]
    apply ih
    · cases pre with
      | nil => exact Or.inl rfl
      | cons d pre2 =>
        rw [List.getLast?_cons_cons] at hlastNL
        exact Or.inr hlastNL
    · exact htail
    · exact hlast

/-- C10: the fallback field regexes only match a line terminated by a
line feed.  For every payload of the form pre ++ last in which the final
segment last (the final line, with no trailing line terminator) holds the
only DTEND occurrence and everything before it ends at a line break, the
DTEND extraction of manualExtractEventData yields none even when the
token inside last is well formed, so the resulting event is unusable and
is skipped by the busy projection. -/
theorem manualExtract_dtend_final_line_unusable (pre last : List Char)
    (hpre : pre = [] ∨ pre.getLast? = some '\n')
    (hnof : containsSub pre ("DTEND".data) = false)
    (hlast : '\n' ∉ last) :
    (manualExtractEventData (String.mk (pre ++ last))).stop? = none
    ∧ isUsable (manualExtractEventData (String.mk (pre ++ last))) = false := by
  have key : fieldMatch ("DTEND".data) true (pre ++ last) = none :=
    fieldMatch_none_structure _ true (by decide) pre last hpre hnof hlast
  have hstop : (manualExtractEventData (String.mk (pre ++ last))).stop? = none := by
    show capToDate (fieldMatch ("DTEND".data) true (String.mk (pre ++ last)).data)
      = none
    rw [show (String.mk (pre ++ last)).data = pre ++ last from rfl, key]
    rfl
  exact ⟨hstop, by simp [isUsable, hstop]⟩

theorem manualExtract_dtend_final_line_unusable_witness :
    (manualExtractEventData (String.mk
        ("BEGIN:VEVENT\nDTSTART:20250602T080000Z\n".data
          ++ "DTEND:20250602T090000Z".data))).stop? = none
    ∧ isUsable (manualExtractEventData (String.mk
        ("BEGIN:VEVENT\nDTSTART:20250602T080000Z\n".data
          ++ "DTEND:20250602T090000Z".data))) = false :=
  manualExtract_dtend_final_line_unusable _ _ (Or.inr (by decide)) (by decide)
    (by decide)
